import Mathlib

/-!
Verification development for a repository holding two small applications:
a retrieval-augmented document chat (agentic_rag.py) and a resume-to-job-description
matcher split into a tool server (mcp_server.py) and a tool client
(mcp_client_streamlitUI.py).  The Lean definitions below are shallow embeddings of
the Python functions named in their doc comments; external services (the language
model, the vector index, the JSON codec, the remote transport) appear as explicit
function parameters.
-/

/-- Whitespace predicate of Python str.strip: space, tab, newline, carriage
return, vertical tab and form feed. -/
def isPySpace (c : Char) : Bool :=
  c = ' ' || c = '\t' || c = '\n' || c = '\r' || c = '\x0b' || c = '\x0c'

/-- Embedding of Python str.strip on character lists: drop whitespace from the
front, then from the back. -/
def pyStripList (l : List Char) : List Char :=
  ((l.dropWhile isPySpace).reverse.dropWhile isPySpace).reverse

/-- Embedding of Python str.strip on strings. -/
def pyStrip (s : String) : String :=
  String.mk (pyStripList s.data)

/-- A chat message as built by LLMAgent.execute_task: a role / content pair. -/
structure ChatMsg where
  role : String
  content : String

/-- The system prompt string built by LLMAgent.execute_task (agentic_rag.py,
lines 47-51). -/
def llmSystemPromptText (context : String) : String :=
  "You are an AI assistant that answers ONLY based on the provided document excerpts. " ++
    "Do not use external knowledge. If the answer is not found, reply with \x27Not found in the document.\x27\n\n" ++
    "DOCUMENT EXCERPTS:\n" ++ context

/-- Embedding of LLMAgent.execute_task (agentic_rag.py, lines 43-53).  The
language model is the parameter llmCall; the second component of the result
counts how many times it was invoked.  The Python guard
`not context or not isinstance(context, str) or len(context.strip()) == 0`
is, on string inputs, exactly `pyStrip context = ""`. -/
def llmAgentExecuteTask (llmCall : List ChatMsg → String)
    (taskDescription context : String) : String × Nat :=
  if pyStrip context = "" then
    ("No relevant information found in the document.", 0)
  else
    (llmCall [⟨"system", llmSystemPromptText context⟩, ⟨"user", taskDescription⟩], 1)

theorem pyStripList_eq_nil_of_all (l : List Char)
    (h : ∀ c ∈ l, isPySpace c = true) : pyStripList l = [] := by
  unfold pyStripList
  have h1 : l.dropWhile isPySpace = [] := by
    rw [List.dropWhile_eq_nil_iff]
    exact h
  rw [h1]
  rfl

/-- C1: for every user question and every context string that is empty or
whitespace-only, the Answering Step returns the fixed message
"No relevant information found in the document." and performs zero calls to
the language model. -/
theorem llmAgent_short_circuit (llmCall : List ChatMsg → String)
    (question context : String)
    (h : ∀ c ∈ context.data, isPySpace c = true) :
    llmAgentExecuteTask llmCall question context =
      ("No relevant information found in the document.", 0) := by
  unfold llmAgentExecuteTask
  have hs : pyStrip context = "" := by
    unfold pyStrip
    rw [pyStripList_eq_nil_of_all _ h]
  rw [if_pos hs]

theorem llmAgent_short_circuit_witness :
    llmAgentExecuteTask (fun _ => "some model answer") "any question" " \t\n " =
      ("No relevant information found in the document.", 0) :=
  llmAgent_short_circuit _ _ _ (by decide)

/-- Boolean test that pat is a prefix of the second list. -/
def isPrefixAt : List Char → List Char → Bool
  | [], _ => true
  | _ :: _, [] => false
  | p :: ps, c :: cs => p == c && isPrefixAt ps cs

/-- Index of the first occurrence of pat as a contiguous sublist, if any.
This is the position at which Python re.search starts its leftmost match of a
literal pattern. -/
def firstOccur (pat : List Char) : List Char → Option Nat
  | [] => if isPrefixAt pat [] then some 0 else none
  | c :: rest =>
    if isPrefixAt pat (c :: rest) then some 0
    else (firstOccur pat rest).map (· + 1)

/-- The literal start marker of the reasoning segment. -/
def openTag : List Char := "<think>".data

/-- The literal end marker of the reasoning segment. -/
def closeTag : List Char := "</think>".data

/-- First match of the regex `<think>(.*?)</think>` under DOTALL: the leftmost
occurrence of the start marker followed by the nearest later occurrence of the
end marker.  Returns (text before the match, group 1, text after the match). -/
def findThinkMatch (s : List Char) : Option (List Char × List Char × List Char) :=
  match firstOccur openTag s with
  | none => none
  | some i =>
    match firstOccur closeTag (s.drop (i + openTag.length)) with
    | none => none
    | some j =>
      some (s.take i, (s.drop (i + openTag.length)).take j,
        (s.drop (i + openTag.length)).drop (j + closeTag.length))

theorem isPrefixAt_length {p l : List Char} (h : isPrefixAt p l = true) :
    p.length ≤ l.length := by
  induction p generalizing l with
  | nil => simp
  | cons x xs ih =>
    cases l with
    | nil => simp [isPrefixAt] at h
    | cons c cs =>
      simp only [isPrefixAt, Bool.and_eq_true] at h
      simpa using ih h.2

theorem isPrefixAt_decomp {p l : List Char} (h : isPrefixAt p l = true) :
    l = p ++ l.drop p.length := by
  induction p generalizing l with
  | nil => simp
  | cons x xs ih =>
    cases l with
    | nil => simp [isPrefixAt] at h
    | cons c cs =>
      simp only [isPrefixAt, Bool.and_eq_true, beq_iff_eq] at h
      obtain ⟨rfl, h2⟩ := h
      simpa using ih h2

theorem isPrefixAt_self_append (p t : List Char) : isPrefixAt p (p ++ t) = true := by
  induction p with
  | nil => rfl
  | cons x xs ih => simp [isPrefixAt, ih]

theorem firstOccur_decomp (pat : List Char) :
    ∀ (s : List Char) (i : Nat), firstOccur pat s = some i →
      s = s.take i ++ pat ++ s.drop (i + pat.length) := by
  intro s
  induction s with
  | nil =>
    intro i h
    unfold firstOccur at h
    by_cases hp : isPrefixAt pat [] = true
    · cases pat with
      | nil =>
        rw [if_pos hp] at h
        cases h
        rfl
      | cons x xs => simp [isPrefixAt] at hp
    · rw [if_neg hp] at h
      cases h
  | cons c rest ih =>
    intro i h
    unfold firstOccur at h
    by_cases hp : isPrefixAt pat (c :: rest) = true
    · rw [if_pos hp] at h
      cases h
      simpa using isPrefixAt_decomp hp
    · rw [if_neg hp] at h
      cases hr : firstOccur pat rest with
      | none => rw [hr] at h; cases h
      | some i' =>
        rw [hr] at h
        cases h
        have := ih i' hr
        calc c :: rest = c :: (rest.take i' ++ pat ++ rest.drop (i' + pat.length)) := by
              rw [← this]
          _ = (c :: rest).take (i' + 1) ++ pat ++ (c :: rest).drop (i' + 1 + pat.length) := by
              simp [List.take_succ_cons, List.drop_succ_cons, Nat.add_right_comm i' 1]

theorem firstOccur_bound (pat : List Char) :
    ∀ (s : List Char) (i : Nat), firstOccur pat s = some i →
      i + pat.length ≤ s.length := by
  intro s
  induction s with
  | nil =>
    intro i h
    unfold firstOccur at h
    by_cases hp : isPrefixAt pat [] = true
    · rw [if_pos hp] at h
      cases h
      simpa using isPrefixAt_length hp
    · rw [if_neg hp] at h
      cases h
  | cons c rest ih =>
    intro i h
    unfold firstOccur at h
    by_cases hp : isPrefixAt pat (c :: rest) = true
    · rw [if_pos hp] at h
      cases h
      simpa using isPrefixAt_length hp
    · rw [if_neg hp] at h
      cases hr : firstOccur pat rest with
      | none => rw [hr] at h; cases h
      | some i' =>
        rw [hr] at h
        cases h
        have := ih i' hr
        simp only [List.length_cons]
        omega

theorem firstOccur_min (pat : List Char) :
    ∀ (x z : List Char) (i : Nat), firstOccur pat (x ++ pat ++ z) = some i →
      i ≤ x.length := by
  intro x
  induction x with
  | nil =>
    intro z i h
    simp only [List.nil_append] at h
    have hp : isPrefixAt pat (pat ++ z) = true := isPrefixAt_self_append pat z
    cases hpz : pat ++ z with
    | nil =>
      rw [hpz] at h
      unfold firstOccur at h
      by_cases hp0 : isPrefixAt pat [] = true
      · rw [if_pos hp0] at h; cases h; simp
      · rw [if_neg hp0] at h; cases h
    | cons c cs =>
      rw [hpz] at h hp
      unfold firstOccur at h
      rw [if_pos hp] at h
      cases h
      simp
  | cons c x' ih =>
    intro z i h
    simp only [List.cons_append] at h
    unfold firstOccur at h
    by_cases hp : isPrefixAt pat (c :: (x' ++ pat ++ z)) = true
    · rw [if_pos hp] at h
      cases h
      simp
    · rw [if_neg hp] at h
      cases hr : firstOccur pat (x' ++ pat ++ z) with
      | none => rw [hr] at h; cases h
      | some i' =>
        rw [hr] at h
        cases h
        have := ih z i' hr
        simp only [List.length_cons]
        omega

theorem firstOccur_isSome_of_append (pat : List Char) :
    ∀ (x z : List Char), (firstOccur pat (x ++ pat ++ z)).isSome = true := by
  intro x
  induction x with
  | nil =>
    intro z
    simp only [List.nil_append]
    have hp : isPrefixAt pat (pat ++ z) = true := isPrefixAt_self_append pat z
    cases hpz : pat ++ z with
    | nil =>
      have hpat : pat = [] := by cases pat <;> simp_all
      subst hpat
      rfl
    | cons c cs =>
      rw [hpz] at hp
      unfold firstOccur
      rw [if_pos hp]
      rfl
  | cons c x' ih =>
    intro z
    simp only [List.cons_append]
    unfold firstOccur
    by_cases hp : isPrefixAt pat (c :: (x' ++ pat ++ z)) = true
    · rw [if_pos hp]; rfl
    · rw [if_neg hp]
      have := ih z
      cases hr : firstOccur pat (x' ++ pat ++ z) with
      | none => rw [hr] at this; cases this
      | some i' => simp [hr]

theorem findThinkMatch_decomp (s pre mid post : List Char)
    (h : findThinkMatch s = some (pre, mid, post)) :
    s = pre ++ openTag ++ mid ++ closeTag ++ post := by
  cases h1 : firstOccur openTag s with
  | none => simp [findThinkMatch, h1] at h
  | some i =>
    cases h2 : firstOccur closeTag (s.drop (i + openTag.length)) with
    | none => simp [findThinkMatch, h1, h2] at h
    | some j =>
      simp only [findThinkMatch, h1, h2, Option.some.injEq, Prod.mk.injEq] at h
      obtain ⟨hpre, hmid, hpost⟩ := h
      subst hpre hmid hpost
      have d1 := firstOccur_decomp openTag s i h1
      have d2 := firstOccur_decomp closeTag (s.drop (i + openTag.length)) j h2
      conv_lhs => rw [d1, d2]
      simp [List.append_assoc]

theorem findThinkMatch_post_lt (s pre mid post : List Char)
    (h : findThinkMatch s = some (pre, mid, post)) :
    post.length < s.length := by
  have := congrArg List.length (findThinkMatch_decomp s pre mid post h)
  simp only [List.length_append] at this
  have hop : openTag.length = 7 := by decide
  have hcl : closeTag.length = 8 := by decide
  omega

theorem findThinkMatch_isSome_of_pair (s x y z : List Char)
    (h : s = x ++ openTag ++ y ++ closeTag ++ z) :
    (findThinkMatch s).isSome = true := by
  subst h
  have hgrp : x ++ openTag ++ y ++ closeTag ++ z = x ++ openTag ++ (y ++ closeTag ++ z) := by
    simp [List.append_assoc]
  cases h1 : firstOccur openTag (x ++ openTag ++ y ++ closeTag ++ z) with
  | none =>
    have := firstOccur_isSome_of_append openTag x (y ++ closeTag ++ z)
    rw [← hgrp, h1] at this
    cases this
  | some i =>
    have hmin : i ≤ x.length := by
      apply firstOccur_min openTag x (y ++ closeTag ++ z)
      rw [← hgrp]
      exact h1
    have hdrop : (x ++ openTag ++ y ++ closeTag ++ z).drop (i + openTag.length) =
        ((x ++ openTag).drop (i + openTag.length) ++ y) ++ closeTag ++ z := by
      have hle : i + openTag.length ≤ (x ++ openTag).length := by
        simp only [List.length_append]
        omega
      calc (x ++ openTag ++ y ++ closeTag ++ z).drop (i + openTag.length)
          = ((x ++ openTag) ++ (y ++ closeTag ++ z)).drop (i + openTag.length) := by
            simp [List.append_assoc]
        _ = (x ++ openTag).drop (i + openTag.length) ++
              (y ++ closeTag ++ z).drop (i + openTag.length - (x ++ openTag).length) := by
            rw [List.drop_append_eq_append_drop]
        _ = ((x ++ openTag).drop (i + openTag.length) ++ y) ++ closeTag ++ z := by
            rw [Nat.sub_eq_zero_of_le hle]
            simp [List.append_assoc]
    cases h2 : firstOccur closeTag ((x ++ openTag ++ y ++ closeTag ++ z).drop (i + openTag.length)) with
    | none =>
      have := firstOccur_isSome_of_append closeTag ((x ++ openTag).drop (i + openTag.length) ++ y) z
      rw [← hdrop, h2] at this
      cases this
    | some j => simp only [findThinkMatch, h1, h2, Option.isSome_some]

/-- Global substitution of re.sub: repeatedly remove the leftmost match,
continuing with the text after it.  The fuel argument bounds the number of
matches; one more than the text length always suffices since every match
consumes at least the two markers. -/
def removeThinkAux : Nat → List Char → List Char
  | 0, s => s
  | fuel + 1, s =>
    match findThinkMatch s with
    | none => s
    | some (pre, _, post) => pre ++ removeThinkAux fuel post

/-- Embedding of remove_think_content (agentic_rag.py, lines 61-62):
re.sub deletes every (non-overlapping) match of `<think>.*?</think>`. -/
def remove_think_content (s : String) : String :=
  String.mk (removeThinkAux (s.data.length + 1) s.data)

/-- Embedding of extract_think_content (agentic_rag.py, lines 56-58): group 1
of the first regex match, stripped; the empty string when there is no match. -/
def extract_think_content (s : String) : String :=
  match findThinkMatch s.data with
  | none => ""
  | some (_, mid, _) => String.mk (pyStripList mid)

theorem removeThinkAux_fuel_irrel :
    ∀ (f : Nat) (s : List Char), s.length < f →
      removeThinkAux f s = removeThinkAux (s.length + 1) s := by
  intro f
  induction f using Nat.strong_induction_on with
  | _ f IH =>
    intro s hs
    obtain ⟨g, rfl⟩ : ∃ g, f = g + 1 := ⟨f - 1, by omega⟩
    cases h : findThinkMatch s with
    | none => simp [removeThinkAux, h]
    | some v =>
      obtain ⟨pre, mid, post⟩ := v
      have hlt : post.length < s.length := findThinkMatch_post_lt s pre mid post h
      have e1 : removeThinkAux (g + 1) s = pre ++ removeThinkAux g post := by
        simp [removeThinkAux, h]
      have e2 : removeThinkAux (s.length + 1) s = pre ++ removeThinkAux s.length post := by
        simp [removeThinkAux, h]
      rw [e1, e2, IH g (by omega) post (by omega), IH s.length (by omega) post hlt]

theorem removeThinkAux_step (s pre mid post : List Char)
    (h : findThinkMatch s = some (pre, mid, post)) :
    removeThinkAux (s.length + 1) s = pre ++ removeThinkAux (post.length + 1) post := by
  have hlt : post.length < s.length := findThinkMatch_post_lt s pre mid post h
  have e : removeThinkAux (s.length + 1) s = pre ++ removeThinkAux s.length post := by
    simp [removeThinkAux, h]
  rw [e, removeThinkAux_fuel_irrel s.length post hlt]

/-- C2: on input "<think>A</think>B" the extraction function returns "A" and
the removal function returns "B"; on every input containing no
`<think>`/`</think>` marker pair the extraction function returns the empty
string and the removal function returns the input unchanged. -/
theorem think_extraction_spec :
    extract_think_content "<think>A</think>B" = "A" ∧
    remove_think_content "<think>A</think>B" = "B" ∧
    ∀ s : String,
      (¬ ∃ x y z : List Char, s.data = x ++ openTag ++ y ++ closeTag ++ z) →
      extract_think_content s = "" ∧ remove_think_content s = s := by
  refine ⟨by decide, by decide, ?_⟩
  intro s hno
  have hn : findThinkMatch s.data = none := by
    cases h : findThinkMatch s.data with
    | none => rfl
    | some v =>
      obtain ⟨pre, mid, post⟩ := v
      exact absurd ⟨pre, mid, post, findThinkMatch_decomp s.data pre mid post h⟩ hno
  constructor
  · simp [extract_think_content, hn]
  · unfold remove_think_content
    have he : removeThinkAux (s.data.length + 1) s.data = s.data := by
      simp [removeThinkAux, hn]
    rw [he]

theorem think_extraction_spec_witness :
    extract_think_content "hello" = "" ∧ remove_think_content "hello" = "hello" :=
  think_extraction_spec.2.2 "hello" (by
    rintro ⟨x, y, z, he⟩
    have hs := findThinkMatch_isSome_of_pair "hello".data x y z he
    rw [show findThinkMatch "hello".data = none from by decide] at hs
    cases hs)

/-- C9: the removal function deletes every marker pair, not only the first:
after deleting the leftmost match it recurses into the text that follows it,
while the extraction function returns only the first pair's enclosed content
with surrounding whitespace stripped; instantiated below on a concrete
two-pair input, where both pairs disappear. -/
theorem think_multi_pair_spec :
    (∀ (s : String) (pre a r : List Char),
      findThinkMatch s.data = some (pre, a, r) →
      remove_think_content s =
        String.mk (pre ++ (remove_think_content (String.mk r)).data) ∧
      extract_think_content s = String.mk (pyStripList a)) ∧
    remove_think_content "<think>A</think>x<think>B</think>y" = "xy" ∧
    extract_think_content "<think>A</think>x<think>B</think>y" = "A" := by
  refine ⟨?_, by decide, by decide⟩
  intro s pre a r h
  constructor
  · unfold remove_think_content
    rw [removeThinkAux_step s.data pre a r h]
  · simp [extract_think_content, h]

theorem think_multi_pair_spec_witness :
    remove_think_content "<think>A</think>x<think>B</think>y" =
      String.mk ([] ++ (remove_think_content (String.mk "x<think>B</think>y".data)).data) ∧
    extract_think_content "<think>A</think>x<think>B</think>y" =
      String.mk (pyStripList "A".data) :=
  think_multi_pair_spec.1 "<think>A</think>x<think>B</think>y" [] "A".data
    "x<think>B</think>y".data (by decide)

/-- A retrieved document as the retrieval agent sees it: the page_content
field of a langchain Document. -/
structure RetrievedDoc where
  page_content : String

/-- The fixed neighbour count passed to the vector index: the search_kwargs
of vectorstore.as_retriever (agentic_rag.py, line 74). -/
def retrieverSearchK : Nat := 5

/-- Embedding of vectorstore.as_retriever(search_kwargs): the vector index is
the opaque function indexQuery from query text and k to ranked documents; the
retriever closes over the fixed k. -/
def asRetriever (indexQuery : String → Nat → List RetrievedDoc) :
    String → List RetrievedDoc :=
  fun query => indexQuery query retrieverSearchK

/-- Embedding of PDFRetrievalAgent.execute_task (agentic_rag.py, lines 28-32):
invoke the retriever on the task description and join the page contents of the
returned documents with newline separators, in the returned order. -/
def pdfRetrievalExecuteTask (retriever : String → List RetrievedDoc)
    (taskDescription : String) : String :=
  String.intercalate "\n" ((retriever taskDescription).map RetrievedDoc.page_content)

/-- C3: the Retrieval Step queries the vector index with k = 5 and returns the
retrieved chunk texts joined with newline separators in the order the index
returned them; when the index returns no chunks the step returns the empty
string rather than raising an error. -/
theorem retrieval_step_spec (indexQuery : String → Nat → List RetrievedDoc)
    (question : String) :
    retrieverSearchK = 5 ∧
    pdfRetrievalExecuteTask (asRetriever indexQuery) question =
      String.intercalate "\n" ((indexQuery question 5).map RetrievedDoc.page_content) ∧
    (indexQuery question 5 = [] →
      pdfRetrievalExecuteTask (asRetriever indexQuery) question = "") := by
  refine ⟨rfl, rfl, ?_⟩
  intro h
  unfold pdfRetrievalExecuteTask asRetriever retrieverSearchK
  rw [h]
  rfl

theorem retrieval_step_spec_witness :
    pdfRetrievalExecuteTask (asRetriever (fun _ _ => [])) "q" = "" :=
  (retrieval_step_spec (fun _ _ => []) "q").2.2 rfl

/-- Modelled from the spec: the Document Ingestor's chunker (the repository
delegates splitting to the third-party RecursiveCharacterTextSplitter, whose
code is not part of this repository) — "split into chunks using a fixed window
length and fixed overlap, preserving original order".  A window of W
characters is taken, then the window start advances by W - O so that
consecutive windows share O characters; the final window is whatever remains.
The fuel argument bounds the number of windows; the text length suffices
whenever O < W, since every step consumes at least one character. -/
def chunkAux (W O : Nat) : Nat → List Char → List (List Char)
  | 0, _ => []
  | fuel + 1, text =>
    if text.length ≤ W then [text]
    else text.take W :: chunkAux W O fuel (text.drop (W - O))

/-- Modelled from the spec: chunking of a whole text; empty extracted text
produces zero chunks. -/
def chunkText (W O : Nat) (text : List Char) : List (List Char) :=
  if text.length = 0 then [] else chunkAux W O text.length text

/-- The fixed window length of the ingestor: chunk_size=512
(agentic_rag.py, line 13). -/
def chunk_size : Nat := 512

/-- The fixed overlap of the ingestor: chunk_overlap=220
(agentic_rag.py, line 13). -/
def chunk_overlap : Nat := 220

/-- The chunking process_pdf performs on the concatenated page text, with the
fixed window length and overlap. -/
def processPdfChunks (text : List Char) : List (List Char) :=
  chunkText chunk_size chunk_overlap text

/-- Concatenation of chunks after removing the first O characters of every
chunk: the tail part of undoing overlapping chunking. -/
def dropConcat (O : Nat) : List (List Char) → List Char
  | [] => []
  | c :: cs => c.drop O ++ dropConcat O cs

/-- Undo overlapping chunking: keep the first chunk whole and drop the
O-character overlap from every later chunk. -/
def reconstructChunks (O : Nat) : List (List Char) → List Char
  | [] => []
  | c :: cs => c ++ dropConcat O cs

theorem dropConcat_chunkAux (W O : Nat) (hWO : O < W) :
    ∀ (fuel : Nat) (t : List Char), t.length ≤ fuel →
      dropConcat O (chunkAux W O fuel t) = t.drop O := by
  intro fuel
  induction fuel with
  | zero =>
    intro t ht
    have : t = [] := List.eq_nil_of_length_eq_zero (Nat.le_zero.mp ht)
    subst this
    simp [chunkAux, dropConcat]
  | succ fuel ih =>
    intro t ht
    by_cases hW : t.length ≤ W
    · simp [chunkAux, hW, dropConcat]
    · have hlen : (t.drop (W - O)).length ≤ fuel := by
        rw [List.length_drop]
        omega
      simp only [chunkAux, if_neg hW, dropConcat, ih (t.drop (W - O)) hlen]
      rw [List.drop_take W O t, List.drop_drop O (W - O) t]
      have h1 : W - O + O = W := by omega
      have h2 : O + (W - O) = W := by omega
      rw [h1]
      calc (t.drop O).take (W - O) ++ t.drop W
          = (t.drop O).take (W - O) ++ (t.drop O).drop (W - O) := by
            rw [List.drop_drop (W - O) O t, h2]
        _ = t.drop O := List.take_append_drop _ _

theorem reconstructChunks_chunkText (W O : Nat) (hWO : O < W) (text : List Char) :
    reconstructChunks O (chunkText W O text) = text := by
  unfold chunkText
  by_cases h0 : text.length = 0
  · rw [if_pos h0]
    rw [List.eq_nil_of_length_eq_zero h0]
    rfl
  · rw [if_neg h0]
    obtain ⟨m, hm⟩ : ∃ m, text.length = m + 1 := ⟨text.length - 1, by omega⟩
    rw [hm]
    by_cases hW : text.length ≤ W
    · simp [chunkAux, hW, reconstructChunks, dropConcat]
    · have hlen : (text.drop (W - O)).length ≤ m := by
        rw [List.length_drop]
        omega
      simp only [chunkAux, if_neg hW, reconstructChunks,
        dropConcat_chunkAux W O hWO m (text.drop (W - O)) hlen]
      rw [List.drop_drop O (W - O) text]
      have h1 : W - O + O = W := by omega
      rw [h1]
      exact List.take_append_drop _ _

theorem mem_dropConcat (O : Nat) (a : Char) :
    ∀ cs : List (List Char), a ∈ dropConcat O cs → ∃ c ∈ cs, a ∈ c := by
  intro cs
  induction cs with
  | nil => intro h; cases h
  | cons c cs ih =>
    intro h
    rw [dropConcat, List.mem_append] at h
    cases h with
    | inl h => exact ⟨c, List.mem_cons_self c cs, List.mem_of_mem_drop h⟩
    | inr h =>
      obtain ⟨c', hc', ha⟩ := ih h
      exact ⟨c', List.mem_cons_of_mem c hc', ha⟩

theorem mem_reconstructChunks (O : Nat) (a : Char) (cs : List (List Char))
    (h : a ∈ reconstructChunks O cs) : ∃ c ∈ cs, a ∈ c := by
  cases cs with
  | nil => cases h
  | cons c cs =>
    rw [reconstructChunks, List.mem_append] at h
    cases h with
    | inl h => exact ⟨c, List.mem_cons_self c cs, h⟩
    | inr h =>
      obtain ⟨c', hc', ha⟩ := mem_dropConcat O a cs h
      exact ⟨c', List.mem_cons_of_mem c hc', ha⟩

theorem chunkAux_head (W O : Nat) (fuel : Nat) (t : List Char)
    (hfuel : 1 ≤ fuel) :
    (chunkAux W O fuel t).head? = some (t.take W) := by
  obtain ⟨k, rfl⟩ : ∃ k, fuel = k + 1 := ⟨fuel - 1, by omega⟩
  by_cases hW : t.length ≤ W
  · simp [chunkAux, hW, List.take_of_length_le hW]
  · simp [chunkAux, hW]

theorem chunkAux_chain (W O : Nat) (hWO : O < W) :
    ∀ (fuel : Nat) (t : List Char), t.length ≤ fuel →
      List.Chain' (fun c c' => c.length = W ∧ c'.take O = c.drop (W - O))
        (chunkAux W O fuel t) := by
  intro fuel
  induction fuel with
  | zero => intro t ht; exact List.chain'_nil
  | succ fuel ih =>
    intro t ht
    by_cases hW : t.length ≤ W
    · simp only [chunkAux, if_pos hW]
      exact List.chain'_singleton t
    · simp only [chunkAux, if_neg hW]
      have hlen : (t.drop (W - O)).length ≤ fuel := by
        rw [List.length_drop]
        omega
      rw [List.chain'_cons']
      refine ⟨?_, ih (t.drop (W - O)) hlen⟩
      intro y hy
      have hfuel : 1 ≤ fuel := by
        have : 1 ≤ (t.drop (W - O)).length := by
          rw [List.length_drop]
          omega
        omega
      rw [chunkAux_head W O fuel (t.drop (W - O)) hfuel] at hy
      cases hy
      constructor
      · rw [List.length_take]
        omega
      · rw [List.take_take, Nat.min_def, if_pos (Nat.le_of_lt hWO),
          List.drop_take W (W - O) t]
        have : W - (W - O) = O := by omega
        rw [this]

/-- C6: for every window length W and overlap O with O < W, chunking covers
every character of the original text (removing the O-character overlap from
each later chunk reconstructs the text exactly, and every character belongs to
some chunk), and each consecutive pair of chunks shares exactly the O boundary
characters (every non-final chunk has full length W and its last O characters
are the next chunk's first O characters); the ingestor instantiates this with
fixed window length 512 and fixed overlap 220. -/
theorem chunking_spec (W O : Nat) (text : List Char) (hWO : O < W) :
    chunk_size = 512 ∧ chunk_overlap = 220 ∧
    reconstructChunks O (chunkText W O text) = text ∧
    (∀ a ∈ text, ∃ c ∈ chunkText W O text, a ∈ c) ∧
    List.Chain' (fun c c' => c.length = W ∧ c'.take O = c.drop (W - O))
      (chunkText W O text) ∧
    reconstructChunks chunk_overlap (processPdfChunks text) = text := by
  refine ⟨rfl, rfl, reconstructChunks_chunkText W O hWO text, ?_, ?_, ?_⟩
  · intro a ha
    apply mem_reconstructChunks O a
    rw [reconstructChunks_chunkText W O hWO text]
    exact ha
  · unfold chunkText
    by_cases h0 : text.length = 0
    · rw [if_pos h0]
      exact List.chain'_nil
    · rw [if_neg h0]
      exact chunkAux_chain W O hWO text.length text (le_refl _)
  · exact reconstructChunks_chunkText chunk_size chunk_overlap (by decide) text

theorem chunking_spec_witness :
    reconstructChunks 1 (chunkText 3 1 "abcde".data) = "abcde".data :=
  (chunking_spec 3 1 "abcde".data (by decide)).2.2.1

/-- An element of a list-shaped LangChain response as the server handles it:
either a dict (with an optional text field) or any other element, carried as
its str() coercion. -/
inductive LCItem where
  | dictItem (text : Option String)
  | strItem (s : String)
deriving DecidableEq

/-- The shapes of a LangChain chain.invoke result that the server code
distinguishes: a plain string, a message object carrying a content attribute,
or a list of elements. -/
inductive LCOutput where
  | plain (s : String)
  | message (content : String)
  | listOut (items : List LCItem)
deriving DecidableEq

/-- A Python value after the shape-handling block: a string, or the unchanged
empty-list value (the only non-string the block lets through). -/
inductive PyVal where
  | str (s : String)
  | emptyList
deriving DecidableEq

/-- str() of the first element of a list response: the text field if the
element is a dict (defaulting to the empty string), its coercion otherwise. -/
def itemText : LCItem → String
  | .dictItem t => t.getD ""
  | .strItem s => s

/-- The output shape-handling block of parse_resume (mcp_server.py, lines
57-60): a non-empty list is replaced by its first element's text, an object
with a content attribute by that content, anything else stays unchanged. -/
def parseResumeShape : LCOutput → PyVal
  | .listOut (item :: _) => .str (itemText item)
  | .listOut [] => .emptyList
  | .message content => .str content
  | .plain s => .str s

/-- The output shape-handling block of parse_jd (mcp_server.py, lines 83-86),
textually identical to that of parse_resume. -/
def parseJdShape : LCOutput → PyVal
  | .listOut (item :: _) => .str (itemText item)
  | .listOut [] => .emptyList
  | .message content => .str content
  | .plain s => .str s

/-- The output shape-handling block of match_resume_to_jd (mcp_server.py,
lines 114-117), textually identical to that of parse_resume. -/
def matchShape : LCOutput → PyVal
  | .listOut (item :: _) => .str (itemText item)
  | .listOut [] => .emptyList
  | .message content => .str content
  | .plain s => .str s

/-- The output shape-handling block of summarize_gap (mcp_server.py, lines
150-153), textually identical to that of parse_resume. -/
def summarizeGapShape : LCOutput → PyVal
  | .listOut (item :: _) => .str (itemText item)
  | .listOut [] => .emptyList
  | .message content => .str content
  | .plain s => .str s

/-- Python str() on a post-block value: the identity on strings; the empty
list prints as "[]". -/
def pyStr : PyVal → String
  | .str s => s
  | .emptyList => "[]"

/-- Python str.strip() on a post-block value: raises AttributeError unless the
value is a string. -/
def pyStripVal : PyVal → Except String String
  | .str s => .ok (pyStrip s)
  | .emptyList => .error "AttributeError"

/-- A JSON value as far as this code inspects one: a string, an object with
named fields, or any other JSON datum. -/
inductive JsonV where
  | jstr (s : String)
  | jobj (fields : List (String × JsonV))
  | jother

/-- A value of a tool-result mapping: a string or a parsed JSON value. -/
inductive ToolVal where
  | str (s : String)
  | json (j : JsonV)

/-- The filled parse_resume prompt template (mcp_server.py, lines 42-53). -/
def parseResumePrompt (resume_text : String) : String :=
  "\n        You are a resume parser. Extract the following fields from the text:\n        - Name\n        - Education\n        - Skills\n        - Work experience (roles, companies, duration)\n\n        Resume:\n        " ++
    resume_text ++ "\n        "

/-- The filled parse_jd prompt template (mcp_server.py, lines 68-79). -/
def parseJdPrompt (jd_text : String) : String :=
  "\n        You are a JD parser. Extract:\n        - Job title\n        - Responsibilities\n        - Required skills\n        - Preferred skills\n\n        Job Description:\n        " ++
    jd_text ++ "\n        "

/-- The filled match_resume_to_jd prompt template (mcp_server.py, lines
94-107). -/
def matchPrompt (parsed_resume parsed_jd : String) : String :=
  "\n        Compare the following resume info to the job description info.\n\n        Resume:\n        " ++
    parsed_resume ++ "\n\n        Job Description:\n        " ++ parsed_jd ++
    "\n\n        List skills or experiences that MATCH and those that are MISSING(present in Job Description but not in Resume ).\n        Respond as JSON: \x7b\"matched_skills\": [], \"missing_skills\": [], \"match_score\": 0.0\x7d\n        "

/-- The filled summarize_gap prompt template (mcp_server.py, lines 131-142). -/
def summarizeGapPrompt (parsed_resume parsed_jd : String) : String :=
  "\n        Generate a professional gap analysis summary comparing the resume and JD.\n\n        Resume:\n        " ++
    parsed_resume ++ "\n\n        JD:\n        " ++ parsed_jd ++
    "\n\n        Highlight strengths, gaps, and whether the candidate is a good fit.\n        "

/-- Embedding of parse_resume (mcp_server.py, lines 37-61); the language model
is the opaque parameter model from filled prompt to response. -/
def parse_resume (model : String → LCOutput) (resume_text : String) :
    List (String × String) :=
  [("parsed_resume", pyStrip (pyStr (parseResumeShape (model (parseResumePrompt resume_text)))))]

/-- Embedding of parse_jd (mcp_server.py, lines 63-87). -/
def parse_jd (model : String → LCOutput) (jd_text : String) :
    List (String × String) :=
  [("parsed_jd", pyStrip (pyStr (parseJdShape (model (parseJdPrompt jd_text)))))]

/-- Embedding of summarize_gap (mcp_server.py, lines 126-154). -/
def summarize_gap (model : String → LCOutput) (parsed_resume parsed_jd : String) :
    List (String × String) :=
  [("gap_summary", pyStrip (pyStr (summarizeGapShape (model (summarizeGapPrompt parsed_resume parsed_jd)))))]

/-- Embedding of match_resume_to_jd (mcp_server.py, lines 89-124).  The JSON
decoder json.loads is the opaque parameter loads, none standing for a
JSONDecodeError; a response the shape block leaves as a non-string makes
str.strip raise, which this function does not catch. -/
def match_resume_to_jd (model : String → LCOutput) (loads : String → Option JsonV)
    (parsed_resume parsed_jd : String) : Except String (List (String × ToolVal)) :=
  match pyStripVal (matchShape (model (matchPrompt parsed_resume parsed_jd))) with
  | .error e => .error e
  | .ok stripped =>
    match loads stripped with
    | some parsed => .ok [("match_resume", .json parsed)]
    | none => .ok [("match_resume", .str stripped), ("error", .str "Invalid JSON")]

/-- C4: for a model output string that fails JSON decoding, match_resume_to_jd
returns (rather than raises) a mapping with the stripped raw text under
match_resume and the key error bound to "Invalid JSON"; for a model output
that decodes, it returns the decoded value under match_resume and no error
key. -/
theorem match_resume_error_handling (model : String → LCOutput)
    (loads : String → Option JsonV) (pr jd raw : String)
    (hmodel : model (matchPrompt pr jd) = .plain raw) :
    (loads (pyStrip raw) = none →
      match_resume_to_jd model loads pr jd =
        .ok [("match_resume", ToolVal.str (pyStrip raw)),
          ("error", ToolVal.str "Invalid JSON")]) ∧
    (∀ j, loads (pyStrip raw) = some j →
      match_resume_to_jd model loads pr jd = .ok [("match_resume", ToolVal.json j)] ∧
      ∀ p ∈ [("match_resume", ToolVal.json j)], p.1 ≠ "error") := by
  constructor
  · intro hn
    simp only [match_resume_to_jd, hmodel, matchShape, pyStripVal, hn]
  · intro j hj
    constructor
    · simp only [match_resume_to_jd, hmodel, matchShape, pyStripVal, hj]
    · intro p hp
      simp only [List.mem_singleton] at hp
      subst hp
      simp

theorem match_resume_error_handling_witness :
    match_resume_to_jd (fun _ => .plain "not json") (fun _ => none) "r" "j" =
      .ok [("match_resume", ToolVal.str (pyStrip "not json")),
        ("error", ToolVal.str "Invalid JSON")] :=
  (match_resume_error_handling (fun _ => .plain "not json") (fun _ => none)
    "r" "j" "not json" rfl).1 rfl

theorem head_dropWhile_not (p : Char → Bool) :
    ∀ (l : List Char) (c : Char), (l.dropWhile p).head? = some c → p c = false := by
  intro l
  induction l with
  | nil => intro c h; cases h
  | cons a t ih =>
    intro c h
    by_cases hp : p a = true
    · rw [List.dropWhile_cons, if_pos hp] at h
      exact ih c h
    · rw [List.dropWhile_cons, if_neg hp] at h
      cases h
      exact Bool.not_eq_true _ |>.mp hp

theorem getLast_dropWhile_eq (p : Char → Bool) :
    ∀ l : List Char, l.dropWhile p ≠ [] →
      (l.dropWhile p).getLast? = l.getLast? := by
  intro l
  induction l with
  | nil => intro h; simp at h
  | cons a t ih =>
    intro h
    by_cases hp : p a = true
    · rw [List.dropWhile_cons, if_pos hp] at h ⊢
      rw [ih h]
      cases t with
      | nil => simp [List.dropWhile] at h
      | cons b t' => rw [List.getLast?_cons_cons]
    · rw [List.dropWhile_cons, if_neg hp]

/-- A string with no leading and no trailing Python whitespace. -/
def noEdgeSpace (s : String) : Prop :=
  (∀ c, s.data.head? = some c → isPySpace c = false) ∧
  (∀ c, s.data.getLast? = some c → isPySpace c = false)

theorem pyStrip_noEdgeSpace (s : String) : noEdgeSpace (pyStrip s) := by
  constructor
  · intro c hc
    have hc' : (((s.data.dropWhile isPySpace).reverse.dropWhile isPySpace).reverse).head? =
        some c := hc
    rw [List.head?_reverse] at hc'
    have hne : (s.data.dropWhile isPySpace).reverse.dropWhile isPySpace ≠ [] := by
      intro he
      rw [he] at hc'
      cases hc'
    rw [getLast_dropWhile_eq isPySpace _ hne, List.getLast?_reverse] at hc'
    exact head_dropWhile_not isPySpace _ c hc'
  · intro c hc
    have hc' : (((s.data.dropWhile isPySpace).reverse.dropWhile isPySpace).reverse).getLast? =
        some c := hc
    rw [List.getLast?_reverse] at hc'
    exact head_dropWhile_not isPySpace _ c hc'

/-- C10: for every model and every input, parse_resume, parse_jd and
summarize_gap each return a mapping with exactly one key (parsed_resume,
parsed_jd and gap_summary respectively) whose value is a string without
leading or trailing whitespace, and the mapping never carries an error key. -/
theorem single_key_tools_spec (model : String → LCOutput) (txt txt2 : String) :
    (∃ v, parse_resume model txt = [("parsed_resume", v)] ∧ noEdgeSpace v) ∧
    (∃ v, parse_jd model txt = [("parsed_jd", v)] ∧ noEdgeSpace v) ∧
    (∃ v, summarize_gap model txt txt2 = [("gap_summary", v)] ∧ noEdgeSpace v) ∧
    (∀ p ∈ parse_resume model txt, p.1 ≠ "error") ∧
    (∀ p ∈ parse_jd model txt, p.1 ≠ "error") ∧
    (∀ p ∈ summarize_gap model txt txt2, p.1 ≠ "error") := by
  refine ⟨⟨_, rfl, pyStrip_noEdgeSpace _⟩, ⟨_, rfl, pyStrip_noEdgeSpace _⟩,
    ⟨_, rfl, pyStrip_noEdgeSpace _⟩, ?_, ?_, ?_⟩ <;>
  · intro p hp
    simp only [parse_resume, parse_jd, summarize_gap, List.mem_singleton] at hp
    subst hp
    simp

/-- The full normalization-to-plain-string path of parse_resume: the shape
block followed by the str() coercion and strip of its return statement. -/
def parseResumeNormalized (r : LCOutput) : Except String String :=
  .ok (pyStrip (pyStr (parseResumeShape r)))

/-- The full normalization-to-plain-string path of parse_jd. -/
def parseJdNormalized (r : LCOutput) : Except String String :=
  .ok (pyStrip (pyStr (parseJdShape r)))

/-- The full normalization-to-plain-string path of summarize_gap. -/
def summarizeGapNormalized (r : LCOutput) : Except String String :=
  .ok (pyStrip (pyStr (summarizeGapShape r)))

/-- The full normalization-to-plain-string path of match_resume_to_jd: the
shape block followed by str.strip() with no str() coercion, so a value the
block leaves as a non-string raises. -/
def matchNormalized (r : LCOutput) : Except String String :=
  pyStripVal (matchShape r)

/-- C5 counterexample: the empty-list response is a response value on which
the four operations do not normalize to the same string: parse_resume (and
parse_jd, summarize_gap) fall back to the plain-string coercion "[]", while
match_resume_to_jd has no such fallback and raises AttributeError. -/
theorem normalize_counterexample :
    matchNormalized (.listOut []) ≠ parseResumeNormalized (.listOut []) ∧
    parseResumeNormalized (.listOut []) = .ok "[]" ∧
    matchNormalized (.listOut []) = .error "AttributeError" ∧
    match_resume_to_jd (fun _ => .listOut []) (fun _ => none) "r" "j" =
      .error "AttributeError" := by
  refine ⟨?_, rfl, rfl, rfl⟩
  intro h
  exact Except.noConfusion h

/-- C5 amended: the three shape checks (non-empty list first, taking the first
element's text field if it is a dict and its string coercion otherwise, then
an object carrying a content attribute, then leaving the value unchanged) are
identical in all four operations, and every response other than the empty list
normalizes to the same string in all four; the plain-string coercion fallback,
however, exists only in parse_resume, parse_jd and summarize_gap — on the
empty-list response match_resume_to_jd raises instead of coercing. -/
theorem normalize_agreement (r : LCOutput) :
    parseResumeShape r = parseJdShape r ∧
    parseResumeShape r = matchShape r ∧
    parseResumeShape r = summarizeGapShape r ∧
    (∀ item rest, r = .listOut (item :: rest) →
      parseResumeShape r = .str (itemText item)) ∧
    (∀ content, r = .message content → parseResumeShape r = .str content) ∧
    (∀ s, r = .plain s → parseResumeShape r = .str s) ∧
    (r ≠ .listOut [] →
      matchNormalized r = parseResumeNormalized r ∧
      matchNormalized r = parseJdNormalized r ∧
      matchNormalized r = summarizeGapNormalized r) := by
  refine ⟨?_, ?_, ?_, ?_, ?_, ?_, ?_⟩
  · cases r with
    | plain s => rfl
    | message c => rfl
    | listOut items => cases items <;> rfl
  · cases r with
    | plain s => rfl
    | message c => rfl
    | listOut items => cases items <;> rfl
  · cases r with
    | plain s => rfl
    | message c => rfl
    | listOut items => cases items <;> rfl
  · intro item rest hr
    subst hr
    rfl
  · intro content hr
    subst hr
    rfl
  · intro s hr
    subst hr
    rfl
  · intro hne
    cases r with
    | plain s => exact ⟨rfl, rfl, rfl⟩
    | message c => exact ⟨rfl, rfl, rfl⟩
    | listOut items =>
      cases items with
      | nil => exact absurd rfl hne
      | cons item rest => exact ⟨rfl, rfl, rfl⟩

theorem normalize_agreement_witness :
    matchNormalized (.plain "x") = parseResumeNormalized (.plain "x") :=
  ((normalize_agreement (.plain "x")).2.2.2.2.2.2 (by
    intro h
    cases h)).1

/-- One content part of a remote tool-call response. -/
structure ContentPart where
  text : String

/-- A remote tool-call response: a sequence of content parts. -/
abbrev ToolResponse := List ContentPart

/-- One remote call as the client issues it: tool name and named arguments. -/
structure RemoteCall where
  tool : String
  args : List (String × JsonV)

/-- What the Display Results block renders: a JSON widget, markdown of a raw
string, markdown of a decoded value, or an error banner. -/
inductive Rendered where
  | jsonView (j : JsonV)
  | markdownStr (s : String)
  | markdownVal (j : JsonV)
  | errorView (s : String)

/-- The outcome of one Main Action run: the inline validation error, a
completed run with its two rendered panels, or an uncaught exception. -/
inductive RunOutcome where
  | inputError (msg : String)
  | finished (matchView : Rendered) (gapView : Rendered)
  | raised (e : String)

/-- Python subscription value[key]: KeyError on a missing field, TypeError on
a non-object. -/
def getItem : JsonV → String → Except String JsonV
  | .jobj fields, k =>
    match fields.lookup k with
    | some v => .ok v
    | none => .error "KeyError"
  | _, _ => .error "TypeError"

/-- json.loads(response[0].text), as the client runs on every tool response:
response[0] raises IndexError on an empty response and a failed decode raises
JSONDecodeError. -/
def decodeFirst (loads : String → Option JsonV) (resp : ToolResponse) :
    Except String JsonV :=
  match resp with
  | [] => .error "IndexError"
  | p :: _ =>
    match loads p.text with
    | some j => .ok j
    | none => .error "JSONDecodeError"

/-- The match-result display (mcp_client_streamlitUI.py, lines 96-100): try
st.json(json.loads(match_result[0].text)), falling back to
st.markdown(match_result[0].text) on any exception; on an empty response the
fallback raises IndexError itself, uncaught. -/
def displayMatch (loads : String → Option JsonV) (resp : ToolResponse) :
    Except String Rendered :=
  match resp with
  | [] => .error "IndexError"
  | p :: _ =>
    match loads p.text with
    | some j => .ok (.jsonView j)
    | none => .ok (.markdownStr p.text)

/-- The gap-summary display (mcp_client_streamlitUI.py, lines 102-107):
decode the first part's text and render its gap_summary field (default
"No summary returned."); any exception — empty response, decode failure, or a
decoded value that is not an object — is caught and shown as an error
message. -/
def displayGap (loads : String → Option JsonV) (resp : ToolResponse) : Rendered :=
  match resp with
  | [] => .errorView "Error parsing gap summary: IndexError"
  | p :: _ =>
    match loads p.text with
    | none => .errorView "Error parsing gap summary: JSONDecodeError"
    | some (.jobj fields) =>
      .markdownVal ((fields.lookup "gap_summary").getD (.jstr "No summary returned."))
    | some _ => .errorView "Error parsing gap summary: AttributeError"

/-- The four tool names in the order the Main Action block issues them. -/
def toolOrder : List String :=
  ["parse_resume", "parse_jd", "match_resume_to_jd", "summarize_gap"]

/-- Embedding of the Main Action and Display Results blocks of the tool
client (mcp_client_streamlitUI.py, lines 71-107): validate that both inputs
are non-blank before any remote call, then issue the four tool calls strictly
in sequence, each call awaited and its result decoded before the next call is
built from it; returns the remote calls issued, in order, and the run's
outcome. -/
def mainAction (callTool : String → List (String × JsonV) → ToolResponse)
    (loads : String → Option JsonV) (resume_text jd_text : String) :
    List RemoteCall × RunOutcome :=
  if pyStrip resume_text = "" ∨ pyStrip jd_text = "" then
    ([], .inputError "Please provide both Resume and Job Description content.")
  else
    match decodeFirst loads (callTool "parse_resume" [("resume_text", .jstr resume_text)]) with
    | .error e => ([⟨"parse_resume", [("resume_text", .jstr resume_text)]⟩], .raised e)
    | .ok c1 =>
      match decodeFirst loads (callTool "parse_jd" [("jd_text", .jstr jd_text)]) with
      | .error e =>
        ([⟨"parse_resume", [("resume_text", .jstr resume_text)]⟩,
          ⟨"parse_jd", [("jd_text", .jstr jd_text)]⟩], .raised e)
      | .ok c2 =>
        match getItem c1 "parsed_resume" with
        | .error e =>
          ([⟨"parse_resume", [("resume_text", .jstr resume_text)]⟩,
            ⟨"parse_jd", [("jd_text", .jstr jd_text)]⟩], .raised e)
        | .ok pr =>
          match getItem c2 "parsed_jd" with
          | .error e =>
            ([⟨"parse_resume", [("resume_text", .jstr resume_text)]⟩,
              ⟨"parse_jd", [("jd_text", .jstr jd_text)]⟩], .raised e)
          | .ok pj =>
            match displayMatch loads
                (callTool "match_resume_to_jd" [("parsed_resume", pr), ("parsed_jd", pj)]) with
            | .error e =>
              ([⟨"parse_resume", [("resume_text", .jstr resume_text)]⟩,
                ⟨"parse_jd", [("jd_text", .jstr jd_text)]⟩,
                ⟨"match_resume_to_jd", [("parsed_resume", pr), ("parsed_jd", pj)]⟩,
                ⟨"summarize_gap", [("parsed_resume", pr), ("parsed_jd", pj)]⟩], .raised e)
            | .ok mv =>
              ([⟨"parse_resume", [("resume_text", .jstr resume_text)]⟩,
                ⟨"parse_jd", [("jd_text", .jstr jd_text)]⟩,
                ⟨"match_resume_to_jd", [("parsed_resume", pr), ("parsed_jd", pj)]⟩,
                ⟨"summarize_gap", [("parsed_resume", pr), ("parsed_jd", pj)]⟩],
               .finished mv (displayGap loads
                 (callTool "summarize_gap" [("parsed_resume", pr), ("parsed_jd", pj)])))

/-- C7: a blank resume or JD text produces no remote call at all; the remote
calls any run issues always form a prefix of the fixed sequence parse_resume,
parse_jd, match_resume_to_jd, summarize_gap — so calls are strictly
sequential, in that order, and never precede validation; and a run whose
decodes succeed issues exactly the four calls in that order, the two later
calls carrying the fields decoded from the first two results. -/
theorem client_sequencing (callTool : String → List (String × JsonV) → ToolResponse)
    (loads : String → Option JsonV) (resume_text jd_text : String) :
    (pyStrip resume_text = "" ∨ pyStrip jd_text = "" →
      (mainAction callTool loads resume_text jd_text).1 = []) ∧
    (∃ t, (mainAction callTool loads resume_text jd_text).1.map RemoteCall.tool ++ t =
      toolOrder) ∧
    (∀ c1 c2 pr pj,
      ¬(pyStrip resume_text = "" ∨ pyStrip jd_text = "") →
      decodeFirst loads (callTool "parse_resume" [("resume_text", .jstr resume_text)]) =
        .ok c1 →
      decodeFirst loads (callTool "parse_jd" [("jd_text", .jstr jd_text)]) = .ok c2 →
      getItem c1 "parsed_resume" = .ok pr →
      getItem c2 "parsed_jd" = .ok pj →
      (mainAction callTool loads resume_text jd_text).1 =
        [⟨"parse_resume", [("resume_text", .jstr resume_text)]⟩,
         ⟨"parse_jd", [("jd_text", .jstr jd_text)]⟩,
         ⟨"match_resume_to_jd", [("parsed_resume", pr), ("parsed_jd", pj)]⟩,
         ⟨"summarize_gap", [("parsed_resume", pr), ("parsed_jd", pj)]⟩]) := by
  refine ⟨?_, ?_, ?_⟩
  · intro hv
    simp [mainAction, if_pos hv]
  · unfold mainAction
    split
    · exact ⟨toolOrder, rfl⟩
    · split
      · exact ⟨["parse_jd", "match_resume_to_jd", "summarize_gap"], rfl⟩
      · split
        · exact ⟨["match_resume_to_jd", "summarize_gap"], rfl⟩
        · split
          · exact ⟨["match_resume_to_jd", "summarize_gap"], rfl⟩
          · split
            · exact ⟨["match_resume_to_jd", "summarize_gap"], rfl⟩
            · split
              · exact ⟨[], rfl⟩
              · exact ⟨[], rfl⟩
  · intro c1 c2 pr pj hv hd1 hd2 hg1 hg2
    simp only [mainAction, if_neg hv, hd1, hd2, hg1, hg2]
    cases hm : displayMatch loads
        (callTool "match_resume_to_jd" [("parsed_resume", pr), ("parsed_jd", pj)]) with
    | error e => rfl
    | ok mv => rfl

theorem client_sequencing_witness :
    (mainAction (fun _ _ => [⟨"t"⟩])
      (fun _ => some (.jobj [("parsed_resume", .jstr "PR"), ("parsed_jd", .jstr "JD")]))
      "a" "b").1 =
      [⟨"parse_resume", [("resume_text", .jstr "a")]⟩,
       ⟨"parse_jd", [("jd_text", .jstr "b")]⟩,
       ⟨"match_resume_to_jd", [("parsed_resume", .jstr "PR"), ("parsed_jd", .jstr "JD")]⟩,
       ⟨"summarize_gap", [("parsed_resume", .jstr "PR"), ("parsed_jd", .jstr "JD")]⟩] :=
  (client_sequencing (fun _ _ => [⟨"t"⟩])
    (fun _ => some (.jobj [("parsed_resume", .jstr "PR"), ("parsed_jd", .jstr "JD")]))
    "a" "b").2.2
    (.jobj [("parsed_resume", .jstr "PR"), ("parsed_jd", .jstr "JD")])
    (.jobj [("parsed_resume", .jstr "PR"), ("parsed_jd", .jstr "JD")])
    (.jstr "PR") (.jstr "JD")
    (by rw [show pyStrip "a" = "a" from rfl, show pyStrip "b" = "b" from rfl]; simp)
    rfl rfl rfl rfl

/-- C8: the client reads the first content part's text of every tool-call
result and decodes it as JSON; in the match step a decode failure falls back
to rendering the raw text, while in the gap-summary step a decode failure
renders an error message instead (and a successful decode renders the
gap_summary field). -/
theorem client_display_spec (loads : String → Option JsonV) (p : ContentPart)
    (rest : List ContentPart) :
    (∀ j, loads p.text = some j → displayMatch loads (p :: rest) = .ok (.jsonView j)) ∧
    (loads p.text = none → displayMatch loads (p :: rest) = .ok (.markdownStr p.text)) ∧
    (loads p.text = none →
      displayGap loads (p :: rest) =
        .errorView "Error parsing gap summary: JSONDecodeError") ∧
    (∀ fields, loads p.text = some (.jobj fields) →
      displayGap loads (p :: rest) =
        .markdownVal ((fields.lookup "gap_summary").getD (.jstr "No summary returned."))) := by
  refine ⟨?_, ?_, ?_, ?_⟩
  · intro j hj
    simp only [displayMatch, hj]
  · intro hn
    simp only [displayMatch, hn]
  · intro hn
    simp only [displayGap, hn]
  · intro fields hf
    simp only [displayGap, hf]

theorem client_display_spec_witness :
    displayMatch (fun _ => none) [⟨"raw text"⟩] = .ok (.markdownStr "raw text") ∧
    displayGap (fun _ => none) [⟨"raw text"⟩] =
      .errorView "Error parsing gap summary: JSONDecodeError" :=
  ⟨(client_display_spec (fun _ => none) ⟨"raw text"⟩ []).2.1 rfl,
   (client_display_spec (fun _ => none) ⟨"raw text"⟩ []).2.2.1 rfl⟩
